import Mathlib

/-
Verification development for the report-generator repository.

The embedding models the data pipeline of src/final.py (classes
DataFormatter, ExcelParser, ContextBuilder), together with the variants
src/ch3.py (apply_numbering) and src/test01.py (process_value_to_richtext)
where a claim cites them.  Spreadsheet cells are modelled as `Option String`
(`none` is a pandas NaN).  A Python float is modelled by `PyFloat`: nan, a
signed infinity, or a finite value kept as an exact unreduced fraction
`PyNum`, so every computation below is plain integer arithmetic.  Parsing
models the full CPython float() string syntax including inf/infinity/nan
words, underscore digit separators, and the overflow of large literals to
infinity (the rounding decision at the top of the double range is exact);
what is not modelled is the rounding of in-range finite values to binary
doubles (they are kept exact, which agrees with CPython display formatting on
every literal evaluated by a theorem in this file), the rounding of tiny
values to zero, and the negative zero.  An escaping Python exception is
modelled by an Option-none result of the function it escapes.
-/

set_option maxRecDepth 8000

namespace Generator

/-- A spreadsheet cell: `none` is a missing value (NaN), `some s` text. -/
abbrev Cell := Option String

/-- A sheet grid, row major, as produced by the spreadsheet collaborator. -/
abbrev Grid := List (List Cell)

/-- Model of Python list/str containment: test whether the second list is an
initial segment of the first. -/
def listStartsWith : List Char → List Char → Bool
  | _, [] => true
  | [], _ :: _ => false
  | a :: as, b :: bs => a == b && listStartsWith as bs

/-- Model of the Python `in` operator on strings: contiguous containment. -/
def listContains : List Char → List Char → Bool
  | [], sub => sub.isEmpty
  | l@(_ :: as), sub => listStartsWith l sub || listContains as sub

/-- Python `sub in s`. -/
def strContains (s sub : String) : Bool := listContains s.data sub.data

/-- Python `s.startswith(p)`. -/
def strStartsWith (s p : String) : Bool := listStartsWith s.data p.data

/-- Python `s.endswith(p)`. -/
def strEndsWith (s p : String) : Bool := listStartsWith s.data.reverse p.data.reverse

/-- Python `s.lower()`; `Char.toLower` only moves ASCII letters, which agrees
with CPython on the ASCII-plus-CJK strings this program handles. -/
def lowerStr (s : String) : String := ⟨s.data.map Char.toLower⟩

/-- Python `s.upper()` under the same ASCII proviso. -/
def upperStr (s : String) : String := ⟨s.data.map Char.toUpper⟩

/-- Python `s.strip()`. -/
def stripStr (s : String) : String :=
  ⟨((s.data.dropWhile Char.isWhitespace).reverse.dropWhile Char.isWhitespace).reverse⟩

/-- Numeric value of a run of decimal digits. -/
def digitsVal (ds : List Char) : Nat := ds.foldl (fun a c => 10 * a + (c.toNat - 48)) 0

/-- Exact value of a Python float literal, an unreduced fraction with a
positive power-of-ten denominator. -/
structure PyNum where
  num : Int
  den : Nat
deriving DecidableEq

/-- A Python float value: nan, a signed infinity, or an exactly kept finite
value. -/
inductive PyFloat where
  | finite (x : PyNum)
  | inf (neg : Bool)
  | nan
deriving DecidableEq

/-- Leading sign of a Python numeric literal. -/
def parseSign : List Char → Int × List Char
  | '-' :: cs => (-1, cs)
  | '+' :: cs => (1, cs)
  | cs => (1, cs)

/-- A character a Python digit run may contain: a digit or an underscore
separator. -/
def numChar (c : Char) : Bool := c.isDigit || c == '_'

/-- PEP 515 validity of the underscores inside one digit run (the run holds
only digits and underscores): every underscore sits directly between two
digits.  Leading underscores are ruled out by digitRun below. -/
def noBadUnderscore : List Char → Bool
  | [] => true
  | ['_'] => false
  | '_' :: '_' :: _ => false
  | '_' :: c :: rest => c.isDigit && noBadUnderscore (c :: rest)
  | _ :: rest => noBadUnderscore rest

/-- One digit run of a Python numeric literal: digits with valid underscore
separators, returned with the underscores removed; none when an underscore is
misplaced.  The empty run is valid and empty. -/
def digitRun (cs : List Char) : Option (List Char) :=
  match cs with
  | '_' :: _ => none
  | _ => if noBadUnderscore cs then some (cs.filter (· != '_')) else none

/-- The smallest magnitude a correctly rounding float() maps to infinity:
the midpoint above the largest finite double, which round-half-even sends up
and out of range.  The value is 2 ^ 1024 - 2 ^ 970, written with small
exponents so numeric evaluation stays shallow. -/
def overflowBound : Nat := (2 ^ 256) ^ 4 - ((2 ^ 256) ^ 3) * 2 ^ 202

/-- The double produced for an exact decimal value, restricted to the
overflow decision: magnitudes at or beyond the overflow bound become the
signed infinity, smaller values are kept exact. -/
def mkPyFloat (num : Int) (den : Nat) : PyFloat :=
  if overflowBound * den ≤ num.natAbs then PyFloat.inf (decide (num < 0))
  else PyFloat.finite ⟨num, den⟩

/-- Model of Python `float(s)` on an already stripped string: an optional
sign followed by an inf/infinity/nan word (case-insensitive) or by decimal
digit runs with an optional point and an optional exponent.  Returns `none`
exactly when CPython raises ValueError. -/
def pyFloat (s : String) : Option PyFloat :=
  let sg := parseSign s.data
  let low := sg.2.map Char.toLower
  if low == "inf".data || low == "infinity".data then some (PyFloat.inf (sg.1 == -1))
  else if low == "nan".data then some PyFloat.nan
  else
    match digitRun (sg.2.takeWhile numChar) with
    | none => none
    | some ds1 =>
      let r1 := sg.2.dropWhile numChar
      let r2 := match r1 with
        | '.' :: t => t.dropWhile numChar
        | _ => r1
      match digitRun (match r1 with
        | '.' :: t => t.takeWhile numChar
        | _ => []) with
      | none => none
      | some ds2 =>
        if ds1.isEmpty && ds2.isEmpty then none
        else
          let mant : Int := sg.1 * (digitsVal (ds1 ++ ds2) : Int)
          let fden : Nat := 10 ^ ds2.length
          match r2 with
          | [] => some (mkPyFloat mant fden)
          | e :: t =>
            if e == 'e' || e == 'E' then
              let esg := parseSign t
              match digitRun (esg.2.takeWhile numChar) with
              | none => none
              | some eds =>
                if eds.isEmpty || !(esg.2.dropWhile numChar).isEmpty then none
                else if esg.1 = 1 then
                  some (mkPyFloat (mant * ((10 ^ digitsVal eds : Nat) : Int)) fden)
                else some (mkPyFloat mant (fden * 10 ^ digitsVal eds))
            else none

/-- Model of Python `int(s)` on a string: optional sign, then one digit run
(underscore separators allowed). -/
def pyIntOfStr (s : String) : Option Int :=
  let sg := parseSign s.data
  if !sg.2.all numChar then none
  else
    match digitRun sg.2 with
    | none => none
    | some ds => if ds.isEmpty then none else some (sg.1 * (digitsVal ds : Int))

/-- Thousands grouping, on a reversed digit list; `k` counts digits emitted
since the last separator. -/
def commaRev : List Char → Nat → List Char
  | [], _ => []
  | c :: cs, k => if k = 3 then ',' :: c :: commaRev cs 1 else c :: commaRev cs (k + 1)

/-- Python format `{n:,}` for a natural number. -/
def groupNat (n : Nat) : String := ⟨(commaRev (Nat.repr n).data.reverse 0).reverse⟩

/-- Python format `{i:,}` for an integer. -/
def groupInt (i : Int) : String := (if i < 0 then "-" else "") ++ groupNat i.natAbs

/-- Round-half-even of the nonnegative fraction n / den to an integer, the
rounding CPython fixed-point formatting applies. -/
def roundHE (n den : Nat) : Nat :=
  let f := n / den
  let r := n % den
  if 2 * r < den then f
  else if den < 2 * r then f + 1
  else if f % 2 = 0 then f else f + 1

/-- Left-pad a digit string with zeros to d characters. -/
def padZeros (s : String) (d : Nat) : String :=
  ⟨List.replicate (d - s.length) '0' ++ s.data⟩

/-- Python f-string fixed formatting with grouping of a finite value, the
model of format(x, ",.df") away from the special values. -/
def formatFixedFin (x : PyNum) (d : Nat) : String :=
  let v := roundHE (x.num.natAbs * 10 ^ d) x.den
  (if x.num < 0 then "-" else "") ++ groupNat (v / 10 ^ d) ++
    (if d = 0 then "" else "." ++ padZeros (Nat.repr (v % 10 ^ d)) d)

/-- Python f-string fixed formatting with grouping: the special values
render as inf, -inf and nan (with no fractional digits appended), as CPython
does. -/
def formatFixed (x : PyFloat) (d : Nat) : String :=
  match x with
  | PyFloat.finite f => formatFixedFin f d
  | PyFloat.inf b => if b then "-inf" else "inf"
  | PyFloat.nan => "nan"

/-- Python `int(x)` truncation toward zero of a finite float. -/
def truncPy (x : PyNum) : Int :=
  if 0 ≤ x.num then ((x.num.natAbs / x.den : Nat) : Int)
  else -((x.num.natAbs / x.den : Nat) : Int)

/-- Python `float.is_integer` of a finite float. -/
def isIntegerFin (x : PyNum) : Bool := x.num.natAbs % x.den = 0

/-- Python `float.is_integer`: false for the infinities and nan. -/
def isIntegerPy : PyFloat → Bool
  | PyFloat.finite x => isIntegerFin x
  | _ => false

/-- DataFormatter.clean_text of src/final.py (clean_text of src/ch3.py is
identical). -/
def cleanText : Cell → String
  | none => ""
  | some v =>
    let s := stripStr v
    if lowerStr s = "nan" || lowerStr s = "none" || lowerStr s = "nat" || s = "" then ""
    else s

/-- The non-numeric marker substrings of final.py line 62. -/
def nonNumericMarkers : List String := ["~", "CH", "CWP", "HP", "/", "New", "new"]

def hasMarker (s : String) : Bool := nonNumericMarkers.any (fun m => strContains s m)

/-- AppConfig.FORMAT_RULES decimal_2 keywords of src/final.py. -/
def decimal2Keywords : List String := ["_rate", "elec_", "new_cop_std", "new_eff_std"]

/-- AppConfig.FORMAT_RULES decimal_1 keywords of src/final.py. -/
def decimal1Keywords : List String := ["_year"]

/-- DataFormatter.format_variable_value of src/final.py lines 54 to 88.  The
try of the source catches ValueError only (line 87), so the int() of the me
branch is caught when it raises ValueError (empty or sign-only integer part
in the dot case, nan in the no-dot case, yielding the raw text) but NOT when
int(float_val) raises OverflowError on an infinite float (line 74): that
exception escapes the formatter, modelled by the `none` result. -/
def format_variable_value (val : Cell) (key_name : String) : Option String :=
  let val_str := cleanText val
  if val_str = "" then some ""
  else if hasMarker val_str then some val_str
  else
    match pyFloat val_str with
    | none => some val_str
    | some fv =>
      let key_lower := lowerStr key_name
      if strStartsWith key_lower "me_" then
        if strContains val_str "." then
          match pyIntOfStr ⟨val_str.data.takeWhile (· != '.')⟩ with
          | none => some val_str
          | some i => some (groupInt i ++ "." ++ ⟨(val_str.data.dropWhile (· != '.')).tail⟩)
        else
          match fv with
          | PyFloat.finite x => some (groupInt (truncPy x))
          | PyFloat.inf _ => none
          | PyFloat.nan => some val_str
      else if decimal2Keywords.any (fun k => strContains key_lower k) then
        some (formatFixed fv 2)
      else if decimal1Keywords.any (fun k => strContains key_lower k) then
        some (formatFixed fv 1)
      else some (formatFixed fv 0)

/-- AppConfig.TABLE_INCLUDE_KEYWORDS. -/
def tableIncludeKeywords : List String := ["kwh", "elecost", "eleccostperkwh"]

/-- DataFormatter.format_table_value of src/final.py lines 90 to 122.  The
int() of the integer branch is guarded by is_integer, which is false for the
infinities and nan, so those take the 2-decimal branch (rendering inf or
nan) and no exception can escape here. -/
def format_table_value (val : Cell) (col_name : String) : String :=
  let val_str := cleanText val
  if val_str = "" then ""
  else if !(tableIncludeKeywords.any (fun k => strContains (lowerStr col_name) k)) then val_str
  else
    match pyFloat ⟨val_str.data.filter (· != ',')⟩ with
    | none => val_str
    | some (PyFloat.finite x) =>
      if isIntegerFin x then groupInt (truncPy x) else formatFixedFin x 2
    | some fv => formatFixed fv 2

/-- A field record: a Python dict from column name to formatted string,
modelled as an insertion-ordered association list with update-in-place. -/
abbrev Rec := List (String × String)

/-- Python dict assignment d[k] = v on a record. -/
def setk (r : Rec) (k v : String) : Rec :=
  match r with
  | [] => [(k, v)]
  | (k0, v0) :: rest => if k0 = k then (k, v) :: rest else (k0, v0) :: setk rest k v

/-- Python dict lookup d.get(k). -/
def getk (r : Rec) (k : String) : Option String :=
  match r with
  | [] => none
  | (k0, v0) :: rest => if k0 = k then some v0 else getk rest k

/-- A value of the Report Context: a scalar string or a record sequence. -/
inductive CtxVal where
  | s (v : String)
  | recs (v : List Rec)
deriving DecidableEq

/-- The Report Context, an insertion-ordered dict like the records. -/
abbrev Ctx := List (String × CtxVal)

def setCtx (c : Ctx) (k : String) (v : CtxVal) : Ctx :=
  match c with
  | [] => [(k, v)]
  | (k0, v0) :: rest => if k0 = k then (k, v) :: rest else (k0, v0) :: setCtx rest k v

def getCtx (c : Ctx) (k : String) : Option CtxVal :=
  match c with
  | [] => none
  | (k0, v0) :: rest => if k0 = k then some v0 else getCtx rest k

def ctxKeys (c : Ctx) : List String := c.map Prod.fst

/-- AppConfig.TARGET_NAMES. -/
def TARGET_NAMES : List String := ["名稱", "name", "設備名稱"]

/-- AppConfig.TARGET_NOS. -/
def TARGET_NOS : List String := ["no", "編號", "設備編號", "冰水主機代號"]

inductive TType where
  | equipment
  | general
deriving DecidableEq

/-- The contribution of one cell to the header-scan row text: nothing for a
missing or blank cell, otherwise the stripped lowercased text. -/
def headerCellText (c : Cell) : Option String :=
  match c with
  | none => none
  | some s => if stripStr s = "" then none else some (lowerStr (stripStr s))

/-- A cell is non-blank: present with non-empty stripped text. -/
def cellNonBlank (c : Cell) : Bool :=
  match c with
  | none => false
  | some s => stripStr s != ""

/-- The joined lowercased text of the non-blank cells of one row, as built in
ExcelParser._find_header_row. -/
def rowToText (row : List Cell) : String :=
  String.intercalate " " (row.filterMap headerCellText)

/-- One row holds at least one non-blank cell. -/
def rowNonBlank (row : List Cell) : Bool := row.any cellNonBlank

def isEquipHeaderRow (row : List Cell) : Bool :=
  (TARGET_NAMES.map lowerStr).any (fun k => strContains (rowToText row) k) &&
    (TARGET_NOS.map lowerStr).any (fun k => strContains (rowToText row) k)

def findEquipHeader (i : Nat) : Grid → Option Nat
  | [] => none
  | row :: rest => if isEquipHeaderRow row then some i else findEquipHeader (i + 1) rest

def findFirstNonBlank (i : Nat) : Grid → Option Nat
  | [] => none
  | row :: rest => if rowNonBlank row then some i else findFirstNonBlank (i + 1) rest

/-- ExcelParser._find_header_row over the 20-row preview; `none` is the
(-1, none) return of the source. -/
def find_header_row (preview : Grid) : Option (Nat × TType) :=
  match findEquipHeader 0 preview with
  | some i => some (i, TType.equipment)
  | none =>
    match findFirstNonBlank 0 preview with
    | some i => some (i, TType.general)
    | none => none

/-- Cell of a (possibly ragged) row at a column index; absent cells are NaN,
as pandas pads short rows. -/
def cellAt (row : List Cell) (i : Nat) : Cell := (row.get? i).join

def gridWidth (g : Grid) : Nat := g.foldl (fun a r => max a r.length) 0

/-- The columns surviving the pandas pipeline of parse_sheet: a column whose
header cell is missing becomes an Unnamed column and is dropped, a column all
of whose data cells are missing is dropped (dropna axis=1 how=all), header
text is stripped.  Duplicate header labels are not mangled pandas-style here;
record building below is last-write-wins instead, an unexercised divergence. -/
def liveCols (header : List Cell) (dataRows : Grid) (width : Nat) : List (Nat × String) :=
  (List.range width).filterMap (fun i =>
    match cellAt header i with
    | none => none
    | some h =>
      if strStartsWith h "Unnamed" then none
      else if dataRows.all (fun r => (cellAt r i).isNone) then none
      else some (i, stripStr h))

/-- First column matching one of the target markers by lowercased substring
test, as the col_map loop of _process_equipment_table resolves a role. -/
def findCol (cols : List (Nat × String)) (targets : List String) : Option (Nat × String) :=
  cols.find? (fun c => targets.any (fun t => strContains (lowerStr c.2) t))

/-- The regex 名稱|Equipment|name with case=False, used to drop repeated
header rows. -/
def headerEcho (s : String) : Bool :=
  strContains (lowerStr s) "名稱" || strContains (lowerStr s) "equipment" ||
    strContains (lowerStr s) "name"

/-- One output row of a table: every kept column value through
format_table_value. -/
def buildRecord (cols : List (Nat × String)) (row : List Cell) : Rec :=
  cols.foldl (fun r c => setk r c.2 (format_table_value (cellAt row c.1) c.2)) []

/-- Blank-row test of _process_general_table: all cells NaN, or all cells
whose str() strips to empty (NaN strs to "nan", so mixed rows are kept). -/
def blankRow (cols : List (Nat × String)) (row : List Cell) : Bool :=
  cols.all (fun c => (cellAt row c.1).isNone) ||
    cols.all (fun c =>
      stripStr (match cellAt row c.1 with | none => "nan" | some s => s) = "")

/-- ExcelParser._process_general_table. -/
def process_general_table (cols : List (Nat × String)) (dataRows : Grid) : List Rec :=
  (dataRows.filter (fun r => !blankRow cols r)).map (buildRecord cols)

/-- ExcelParser._process_equipment_table: resolve the name and no columns,
drop rows missing either, drop repeated header rows, then build records and
overwrite the reserved name and no keys with cleaned raw text; fall back to
the general table when a role is unresolved. -/
def process_equipment_table (cols : List (Nat × String)) (dataRows : Grid) : List Rec :=
  match findCol cols (TARGET_NAMES.map lowerStr), findCol cols (TARGET_NOS.map lowerStr) with
  | some nameCol, some noCol =>
    (dataRows.filter (fun r =>
        (cellAt r nameCol.1).isSome && (cellAt r noCol.1).isSome &&
          !headerEcho ((cellAt r nameCol.1).getD ""))).map
      (fun r =>
        setk (setk (buildRecord cols r) "name" (cleanText (cellAt r nameCol.1)))
          "no" (cleanText (cellAt r noCol.1)))
  | _, _ => process_general_table cols dataRows

/-- ExcelParser.parse_sheet of src/final.py on the text grid of one sheet. -/
def parse_sheet (g : Grid) : List Rec :=
  match find_header_row (g.take 20) with
  | none => []
  | some ht =>
    let dataRows := g.drop (ht.1 + 1)
    let cols := liveCols (g.getD ht.1 []) dataRows (gridWidth g)
    match ht.2 with
    | TType.equipment => process_equipment_table cols dataRows
    | TType.general => process_general_table cols dataRows

/-- AppConfig.SORT_WEIGHTS in dict insertion order. -/
def SORT_WEIGHTS : List (String × Nat) :=
  [("chiller", 1), ("主機", 1), ("pump", 2), ("泵", 2), ("tower", 3), ("水塔", 3)]

/-- ContextBuilder._get_sort_weight. -/
def get_sort_weight (name : String) : Nat :=
  match SORT_WEIGHTS.find? (fun p => strContains (lowerStr name) p.1) with
  | some p => p.2
  | none => 4

/-- Stable insertion step for the weight sort.  The element being inserted
precedes the already sorted tail in the original order, so it is placed
before the first tail element whose weight is not strictly smaller: equal
weights keep the original order, matching the stable Python list.sort. -/
def insertByWeight (x : String × List Rec) :
    List (String × List Rec) → List (String × List Rec)
  | [] => [x]
  | y :: ys =>
    if get_sort_weight y.1 < get_sort_weight x.1 then y :: insertByWeight x ys
    else x :: y :: ys

def sortByWeight : List (String × List Rec) → List (String × List Rec)
  | [] => []
  | x :: xs => insertByWeight x (sortByWeight xs)

/-- The chiller-sheet keyword test of _apply_numbering. -/
def isChillerSheet (n : String) : Bool :=
  ["主機", "chiller", "冰水機"].any (fun k => strContains (lowerStr n) k)

/-- ContextBuilder._is_pump_sheet. -/
def is_pump_sheet (n : String) : Bool :=
  strContains n "泵" || strContains (lowerStr n) "pump"

/-- The three shared label counters, instance state of ContextBuilder. -/
structure Counters where
  pm : Nat
  fm : Nat
  t : Nat
deriving DecidableEq

def freshCounters : Counters := ⟨1, 1, 1⟩

/-- The point-label pass over the records of one sheet. -/
def pmRecords (c : Nat) : List Rec → Nat × List Rec
  | [] => (c, [])
  | r :: rs =>
    let p := pmRecords (c + 1) rs
    (p.1, setk r "pm" ("PM" ++ Nat.repr c) :: p.2)

/-- The point-label pass over all sheets of a cohort, in order. -/
def pmSheets (c : Nat) : List (String × List Rec) → Nat × List (String × List Rec)
  | [] => (c, [])
  | (n, items) :: rest =>
    let p := pmRecords c items
    let q := pmSheets p.1 rest
    (q.1, (n, p.2) :: q.2)

/-- The chiller numbering of final.py lines 325 to 338: for each record the
evaporator flow-meter and temperature pair and then, immediately, the
condenser labels, interleaved within one traversal. -/
def chillerRecords (fm t : Nat) : List Rec → Nat × Nat × List Rec
  | [] => (fm, t, [])
  | r :: rs =>
    let p := chillerRecords (fm + 2) (t + 4) rs
    (p.1, p.2.1,
      setk (setk (setk (setk (setk (setk r
        "evap_fm" ("FM" ++ Nat.repr fm))
        "evap_t_out" ("T" ++ Nat.repr t))
        "evap_t_in" ("T" ++ Nat.repr (t + 1)))
        "cond_fm" ("FM" ++ Nat.repr (fm + 1)))
        "cond_t_out" ("T" ++ Nat.repr (t + 2)))
        "cond_t_in" ("T" ++ Nat.repr (t + 3)) :: p.2.2)

def chillerSheets (fm t : Nat) :
    List (String × List Rec) → Nat × Nat × List (String × List Rec)
  | [] => (fm, t, [])
  | (n, items) :: rest =>
    if isChillerSheet n then
      let p := chillerRecords fm t items
      let q := chillerSheets p.1 p.2.1 rest
      (q.1, q.2.1, (n, p.2.2) :: q.2.2)
    else
      let q := chillerSheets fm t rest
      (q.1, q.2.1, (n, items) :: q.2.2)

/-- ContextBuilder._apply_numbering of src/final.py: the pm pass over every
record, then the single interleaved chiller pass, threading the instance
counters. -/
def apply_numbering (c : Counters) (sheets : List (String × List Rec)) :
    Counters × List (String × List Rec) :=
  let p := pmSheets c.pm sheets
  let q := chillerSheets c.fm c.t p.2
  (⟨p.1, q.1, q.2.1⟩, q.2.2)

/-- The evaporator-side pass of apply_numbering in src/ch3.py lines 180-184. -/
def evapRecords (fm t : Nat) : List Rec → Nat × Nat × List Rec
  | [] => (fm, t, [])
  | r :: rs =>
    let p := evapRecords (fm + 1) (t + 2) rs
    (p.1, p.2.1,
      setk (setk (setk r
        "evap_fm" ("FM" ++ Nat.repr fm))
        "evap_t_out" ("T" ++ Nat.repr t))
        "evap_t_in" ("T" ++ Nat.repr (t + 1)) :: p.2.2)

/-- The condenser-side pass of apply_numbering in src/ch3.py lines 187-191. -/
def condRecords (fm t : Nat) : List Rec → Nat × Nat × List Rec
  | [] => (fm, t, [])
  | r :: rs =>
    let p := condRecords (fm + 1) (t + 2) rs
    (p.1, p.2.1,
      setk (setk (setk r
        "cond_fm" ("FM" ++ Nat.repr fm))
        "cond_t_out" ("T" ++ Nat.repr t))
        "cond_t_in" ("T" ++ Nat.repr (t + 1)) :: p.2.2)

def evapSheets (fm t : Nat) :
    List (String × List Rec) → Nat × Nat × List (String × List Rec)
  | [] => (fm, t, [])
  | (n, items) :: rest =>
    if isChillerSheet n then
      let p := evapRecords fm t items
      let q := evapSheets p.1 p.2.1 rest
      (q.1, q.2.1, (n, p.2.2) :: q.2.2)
    else
      let q := evapSheets fm t rest
      (q.1, q.2.1, (n, items) :: q.2.2)

def condSheets (fm t : Nat) :
    List (String × List Rec) → Nat × Nat × List (String × List Rec)
  | [] => (fm, t, [])
  | (n, items) :: rest =>
    if isChillerSheet n then
      let p := condRecords fm t items
      let q := condSheets p.1 p.2.1 rest
      (q.1, q.2.1, (n, p.2.2) :: q.2.2)
    else
      let q := condSheets fm t rest
      (q.1, q.2.1, (n, items) :: q.2.2)

/-- apply_numbering of src/ch3.py lines 163 to 191 (labeling part): local
counters all starting at 1, a pm pass, a full evaporator-side pass over every
chiller-sheet record, then a full condenser-side pass continuing the same
counters.  The iteration over the collected chiller_lists follows sheet
order, as in the source. -/
def apply_numbering_ch3 (sheets : List (String × List Rec)) :
    List (String × List Rec) :=
  let p := pmSheets 1 sheets
  let q := evapSheets 1 1 p.2
  let w := condSheets q.1 q.2.1 q.2.2
  w.2.2

def isZonePump (r : Rec) : Bool :=
  strContains (upperStr ((getk r "no").getD "")) "ZP" ||
    strContains ((getk r "name").getD "") "區域"

def isCoolPump (r : Rec) : Bool :=
  strContains (upperStr ((getk r "no").getD "")) "CWP" ||
    strContains ((getk r "name").getD "") "冷卻"

def isIcePump (r : Rec) : Bool :=
  strContains (upperStr ((getk r "no").getD "")) "CHP" ||
    strContains ((getk r "name").getD "") "冰水"

/-- The four category lists of ContextBuilder._classify_pumps in the tuple
order (ice, cool, zone, other); the per-record branch order is zone, cool,
ice, other, first match wins, as in the source. -/
def classifyPumpLists : List Rec → List Rec × List Rec × List Rec × List Rec
  | [] => ([], [], [], [])
  | r :: rest =>
    let p := classifyPumpLists rest
    if isZonePump r then (p.1, p.2.1, r :: p.2.2.1, p.2.2.2)
    else if isCoolPump r then (p.1, r :: p.2.1, p.2.2.1, p.2.2.2)
    else if isIcePump r then (r :: p.1, p.2.1, p.2.2.1, p.2.2.2)
    else (p.1, p.2.1, p.2.2.1, r :: p.2.2.2)

def pumpSuffixes : List String := ["_冰水", "_冷卻", "_區域", "_其他"]

def pumpKeys (base : String) : List String := pumpSuffixes.map (fun s => base ++ s)

/-- ContextBuilder._classify_pumps: the four suffixed keys are always
written, in the source order. -/
def classify_pumps (base : String) (items : List Rec) (ctx : Ctx) : Ctx :=
  let p := classifyPumpLists items
  setCtx (setCtx (setCtx (setCtx ctx
    (base ++ "_冰水") (CtxVal.recs p.1))
    (base ++ "_冷卻") (CtxVal.recs p.2.1))
    (base ++ "_區域") (CtxVal.recs p.2.2.1))
    (base ++ "_其他") (CtxVal.recs p.2.2.2)

/-- The write-back loop of ContextBuilder._process_group. -/
def writeSheets (c : Ctx) : List (String × List Rec) → Ctx
  | [] => c
  | (n, items) :: rest =>
    writeSheets (if is_pump_sheet n then classify_pumps n items (setCtx c n (CtxVal.recs items))
      else setCtx c n (CtxVal.recs items)) rest

/-- ContextBuilder._process_group: stable weight sort, numbering with the
shared counters, write-back with pump classification. -/
def process_group (st : Ctx × Counters) (sheets : List (String × List Rec)) :
    Ctx × Counters :=
  let q := apply_numbering st.2 (sortByWeight sheets)
  (writeSheets st.1 q.2, q.1)

/-- A workbook: sheet names in order with their text grids. -/
abbrev Workbook := List (String × Grid)

/-- The classification loop of ContextBuilder._process_sheets: skip the
variable sheet, skip sheets with empty extraction, group baseline and
improved sheets, write standalone sheets at once with pump classification. -/
def splitCohorts (ctx : Ctx) (before after : List (String × List Rec)) :
    Workbook → Ctx × List (String × List Rec) × List (String × List Rec)
  | [] => (ctx, before, after)
  | (n, g) :: rest =>
    if n = "變數" then splitCohorts ctx before after rest
    else
      let data := parse_sheet g
      if data.isEmpty then splitCohorts ctx before after rest
      else if strContains n "改善前" then
        splitCohorts ctx (before ++ [(n, data)]) after rest
      else if strContains n "改善後" then
        splitCohorts ctx before (after ++ [(n, data)]) rest
      else
        splitCohorts
          (if is_pump_sheet n then classify_pumps n data (setCtx ctx n (CtxVal.recs data))
            else setCtx ctx n (CtxVal.recs data)) before after rest

/-- ContextBuilder._process_sheets: both cohorts are processed with the same
instance counters, baseline first. -/
def process_sheets (st : Ctx × Counters) (wb : Workbook) : Ctx × Counters :=
  let s := splitCohorts st.1 [] [] wb
  process_group (process_group (s.1, st.2) s.2.1) s.2.2

/-- The row loop of ContextBuilder._load_variables: first column is the key
(skipped when missing), second column the value, formatted in variable mode.
When the formatter raises (an infinite me value), the exception aborts the
loop and is caught by the except of _load_variables: the entries stored so
far remain in the context and the remaining rows are skipped. -/
def load_variables_rows (ctx : Ctx) : Grid → Ctx
  | [] => ctx
  | row :: rest =>
    match cellAt row 0 with
    | none => load_variables_rows ctx rest
    | some k =>
      match format_variable_value (cellAt row 1) (stripStr k) with
      | none => ctx
      | some v => load_variables_rows (setCtx ctx (stripStr k) (CtxVal.s v)) rest

/-- ContextBuilder._load_variables on a loaded workbook: the sheet named 變數
if present, else the first sheet.  (The source raises on a sheetless
workbook before its try block; that unreachable-in-practice case is modelled
as a no-op.) -/
def load_variables (wb : Workbook) (ctx : Ctx) : Ctx :=
  match wb with
  | [] => ctx
  | w0 :: _ => load_variables_rows ctx ((wb.find? (fun p => p.1 == "變數")).getD w0).2

/-- _load_variables with its try/except made explicit: a failing sheet parse
is logged with logger.warning and swallowed, the context is left untouched
and the build goes on. -/
def load_variables_checked (r : Except String Grid) (ctx : Ctx) : Ctx :=
  match r with
  | Except.error _ => ctx
  | Except.ok g => load_variables_rows ctx g

/-- ContextBuilder.build: a builder is constructed fresh per request, so the
context and the counters start empty and at 1. -/
def build (wb : Workbook) : Ctx :=
  (process_sheets (load_variables wb [], freshCounters) wb).1

/-- build with the variable-sheet parse outcome made explicit, to state what
happens when that parse fails. -/
def build_var_checked (r : Except String Grid) (wb : Workbook) : Ctx :=
  (process_sheets (load_variables_checked r [], freshCounters) wb).1

/-- Return values of process_value_to_richtext in src/test01.py: a RichText
run or a plain string. -/
inductive T1Val where
  | rt (text color : String) (bold : Bool)
  | plain (s : String)
deriving DecidableEq

/-- The is_number logic of src/test01.py lines 34 to 51: slash strings are
never numeric, a minus is accepted only as a single leading sign, otherwise
the value is parsed as a float. -/
def t1Number (s : String) : Option PyFloat :=
  if strContains s "/" then none
  else if strContains s "-" then
    if s.data.count '-' == 1 && strStartsWith s "-" then pyFloat s else none
  else pyFloat s

/-- process_value_to_richtext of src/test01.py lines 7 to 95.  `none` models
an exception escaping the format section, which is outside every local try:
ValueError from the unguarded int() of the me dot branch (inputs like ".5")
or from int(nan), and OverflowError from int() of an infinite float; the
2-decimal branch keyword chain has unbalanced parentheses in the source
(line 77) and is modelled as the evident intended disjunction. -/
def process_value_to_richtext (val : Cell) (key_name : String) : Option T1Val :=
  match val with
  | none => some (T1Val.plain "")
  | some v =>
    let val_str := stripStr v
    if val_str = "" then some (T1Val.plain "")
    else if strContains val_str "~" || strContains val_str "～" then
      some (T1Val.rt val_str "000000" false)
    else
      match t1Number val_str with
      | none => some (T1Val.plain val_str)
      | some fv =>
        let key_lower := lowerStr (stripStr key_name)
        if strStartsWith key_lower "me_" then
          if strContains val_str "." then
            match pyIntOfStr ⟨val_str.data.takeWhile (· != '.')⟩ with
            | none => none
            | some i =>
              some (T1Val.rt (groupInt i ++ "." ++ ⟨(val_str.data.dropWhile (· != '.')).tail⟩)
                "FF0000" false)
          else
            match fv with
            | PyFloat.finite x => some (T1Val.rt (groupInt (truncPy x)) "FF0000" false)
            | _ => none
        else if strEndsWith key_lower "_rate" || strContains key_lower "elec_price" ||
            strContains key_lower "new_cop_std" || strContains key_lower "new_eff_std" then
          some (T1Val.rt (formatFixed fv 2) "FF0000" false)
        else if strEndsWith key_lower "_year" then
          some (T1Val.rt (formatFixed fv 1) "FF0000" false)
        else some (T1Val.rt (formatFixed fv 0) "FF0000" false)

/-- Three plain records for the concrete labeling scenarios. -/
def recA : Rec := [("name", "主機A"), ("no", "CH-1")]

def recB : Rec := [("name", "主機B"), ("no", "CH-2")]

def recP : Rec := [("name", "冰水泵A"), ("no", "CHP-1")]

/-- The baseline cohort of the C1 scenario: two one-record chiller sheets and
one pump sheet, already in cohort (sorted) order. -/
def demoCohort : List (String × List Rec) :=
  [("改善前主機一", [recA]), ("改善前主機二", [recB]), ("改善前泵", [recP])]

def demoNumbered : List (String × List Rec) := (apply_numbering freshCounters demoCohort).2

def demoNumberedCh3 : List (String × List Rec) := apply_numbering_ch3 demoCohort

/-- Record j of sheet i in a labeled cohort list. -/
def sheetRec (l : List (String × List Rec)) (i j : Nat) : Rec := (l.getD i ("", [])).2.getD j []

/-- Record j of the record sequence stored under key k of a context. -/
def ctxRec (c : Ctx) (k : String) (j : Nat) : Rec :=
  match getCtx c k with
  | some (CtxVal.recs rs) => rs.getD j []
  | _ => []

/-- One-record baseline and improved cohorts for the C2 scenario. -/
def beforeCohort : List (String × List Rec) := [("改善前主機", [recA])]

def afterCohort : List (String × List Rec) := [("改善後主機", [recB])]

/-- The two _process_group calls of _process_sheets on a fresh builder. -/
def demoTwoGroups : Ctx × Counters :=
  process_group (process_group ([], freshCounters) beforeCohort) afterCohort

/-- A tiny equipment sheet: header row with name and no markers, one data
row. -/
def chillerGrid : Grid :=
  [[some "名稱", some "no"], [some "主機A", some "CH-1"]]

/-- A sheet with no non-blank cell anywhere in the scan window. -/
def blankGrid : Grid := [[none, none], [none], [some "  "]]

def demoWb : Workbook := [("改善前主機", chillerGrid)]

def demoWb2 : Workbook := [("blanksheet", blankGrid), ("改善前主機", chillerGrid)]

/-- A key the sheet-processing stage can have written: some workbook sheet
with non-empty extraction whose name, or one of whose pump-suffixed
composites, is the key. -/
def contribKey (wb : Workbook) (a : String) : Prop :=
  ∃ p ∈ wb, parse_sheet p.2 ≠ [] ∧ (a = p.1 ∨ a ∈ pumpKeys p.1)

/-- A cohort-list sheet name: the name of some workbook sheet with non-empty
extraction. -/
def contribName (wb : Workbook) (m : String) : Prop :=
  ∃ p ∈ wb, parse_sheet p.2 ≠ [] ∧ m = p.1

/-- Shared fallback lemma: when the cleaned text of a cell does not parse as
a Python float, format_variable_value passes the cleaned text through. -/
theorem fvv_parse_fail (v : Cell) (k : String)
    (h : pyFloat (cleanText v) = none) :
    format_variable_value v k = some (cleanText v) := by
  simp only [format_variable_value, h]
  split
  · rename_i h0
    exact congrArg some h0.symm
  · split <;> rfl

/-- C5: the variable-mode Value Formatter selects its rule by the lowercased
key: an me_ key keeps the original decimal text with grouping on the integer
part, a 2-decimal keyword key renders two fractional digits with grouping, a
1-decimal keyword key renders one fractional digit, and any other key renders
zero fractional digits, rounded, with grouping, witnessed on the concrete
examples of the claim. -/
theorem C5_format_examples :
    format_variable_value (some "39.5") "me_eff" = some "39.5" ∧
    format_variable_value (some "1234.56") "me_x" = some "1,234.56" ∧
    format_variable_value (some "100") "x_rate" = some "100.00" ∧
    format_variable_value (some "100") "X_RATE" = some "100.00" ∧
    format_variable_value (some "1234.56") "x_year" = some "1,234.6" ∧
    format_variable_value (some "1234.6") "x" = some "1,235" ∧
    format_variable_value (some "1234") "x" = some "1,234" := by decide

/-- C6 counterexample: the variable-mode Value Formatter does raise.  For an
me key and a value whose float is infinite, such as the overflow literal
1e400 or the word inf, the int(float_val) of final.py line 74 raises
OverflowError, which the except ValueError of line 87 does not catch: the
exception escapes the formatter (the none result) instead of a string being
returned. -/
theorem C6_counterexample :
    format_variable_value (some "1e400") "me_x" = none ∧
    format_variable_value (some "inf") "me_x" = none := by decide

/-- C6 amended: any cell whose cleaned text fails numeric parsing is passed
through as the cleaned trimmed text, and the formatter returns a string on
every input except one path: when the lowercased key has the me prefix, the
cleaned text has no decimal point, and the value parses to an infinite float
(overflow literals such as 1e400, or inf words), int(float_val) raises
OverflowError which the except ValueError does not catch, and the exception
escapes.  The second conjunct proves the escape happens only there; int(nan)
raises ValueError, which is caught and yields the raw text. -/
theorem C6_exception_amended :
    (∀ (v : Cell) (k : String), pyFloat (cleanText v) = none →
      format_variable_value v k = some (cleanText v)) ∧
    (∀ (v : Cell) (k : String), format_variable_value v k = none →
      strStartsWith (lowerStr k) "me_" = true ∧
      strContains (cleanText v) "." = false ∧
      ∃ b, pyFloat (cleanText v) = some (PyFloat.inf b)) := by
  refine ⟨fvv_parse_fail, ?_⟩
  intro v k h
  simp only [format_variable_value] at h
  split at h
  · simp at h
  · split at h
    · simp at h
    · split at h
      · simp at h
      · rename_i fv hfv
        by_cases hme : strStartsWith (lowerStr k) "me_" = true
        · rw [if_pos hme] at h
          by_cases hdot : strContains (cleanText v) "." = true
          · rw [if_pos hdot] at h
            split at h <;> simp at h
          · rw [if_neg hdot] at h
            refine ⟨hme, by simpa using hdot, ?_⟩
            cases fv with
            | finite x => simp at h
            | inf b => exact ⟨b, hfv⟩
            | nan => simp at h
        · rw [if_neg hme] at h
          split at h
          · simp at h
          · split at h <;> simp at h

theorem C6_exception_amended_witness :
    format_variable_value (some " hello ") "x" = some (cleanText (some " hello ")) ∧
    (strStartsWith (lowerStr "me_x") "me_" = true ∧
      strContains (cleanText (some "1e400")) "." = false ∧
      ∃ b, pyFloat (cleanText (some "1e400")) = some (PyFloat.inf b)) :=
  ⟨C6_exception_amended.1 (some " hello ") "x" (by decide),
    C6_exception_amended.2 (some "1e400") "me_x" (by decide)⟩

/-- C9: any cell whose cleaned text contains one of the configured
non-numeric marker substrings is returned as the cleaned text unchanged, for
every key. -/
theorem C9_marker_passthrough (v : Cell) (k : String)
    (h : hasMarker (cleanText v) = true) :
    format_variable_value v k = some (cleanText v) := by
  simp only [format_variable_value, h]
  split
  · rename_i h0
    exact congrArg some h0.symm
  · simp

theorem C9_marker_passthrough_witness :
    hasMarker (cleanText (some "1~2")) = true ∧
    format_variable_value (some "1~2") "x_rate" = some (cleanText (some "1~2")) :=
  ⟨by decide, C9_marker_passthrough (some "1~2") "x_rate" (by decide)⟩

/-- C7 counterexample: the string 1e-5 carries a minus that is not a single
leading minus, yet final.py DataFormatter.format_variable_value parses it as
a float and numerically formats it to 0 instead of returning the raw trimmed
text. -/
theorem C7_counterexample :
    strContains "1e-5" "-" = true ∧
    strStartsWith "1e-5" "-" = false ∧
    cleanText (some "1e-5") = "1e-5" ∧
    format_variable_value (some "1e-5") "x" = some "0" := by decide

/-- C7 amended: an improper minus makes final.py format_variable_value
return the raw trimmed text only when the value also fails Python float
parsing (exponent notation such as 1e-5 parses and is reformatted); a single
leading minus as in -5 is accepted as negative and numerically formatted; the
process_value_to_richtext of test01.py implements the leading-minus
heuristic literally and returns the raw text for every improper-minus string,
1e-5 included. -/
theorem C7_minus_amended :
    (∀ (s k : String),
      strContains s "-" = true →
      (s.data.count '-' == 1 && strStartsWith s "-") = false →
      pyFloat (cleanText (some s)) = none →
      format_variable_value (some s) k = some (cleanText (some s))) ∧
    format_variable_value (some "-5") "x" = some "-5" ∧
    format_variable_value (some "1e-5") "x" = some "0" ∧
    process_value_to_richtext (some "1e-5") "x" = some (T1Val.plain "1e-5") ∧
    process_value_to_richtext (some "2024-01-01") "x" = some (T1Val.plain "2024-01-01") :=
  ⟨fun s k _ _ h => fvv_parse_fail (some s) k h, by decide, by decide, by decide, by decide⟩

theorem C7_minus_amended_witness :
    strContains "2024-01-01" "-" = true ∧
    format_variable_value (some "2024-01-01") "x" = some (cleanText (some "2024-01-01")) :=
  ⟨by decide,
    C7_minus_amended.1 "2024-01-01" "x" (by decide) (by decide) (by decide)⟩

/-- C1 counterexample: on the baseline cohort of the claim (two one-record
chiller sheets then a pump sheet), final.py _apply_numbering gives the second
chiller record evap_fm FM3, not the FM2 the claim asserts, and gives the
first chiller record cond_t_out T3, not T5: the evaporator and condenser
labels are interleaved, not assigned in two separated passes. -/
theorem C1_counterexample :
    getk (sheetRec demoNumbered 1 0) "evap_fm" = some "FM3" ∧
    getk (sheetRec demoNumbered 1 0) "evap_fm" ≠ some "FM2" ∧
    getk (sheetRec demoNumbered 0 0) "cond_t_out" = some "T3" ∧
    getk (sheetRec demoNumbered 0 0) "cond_t_out" ≠ some "T5" := by decide

/-- C1 amended: point labels are assigned to every record first in both
revisions; in ch3.py apply_numbering the evaporator pass over all chiller
records precedes the condenser pass with shared continuing counters, giving
evap FM1, FM2 with pairs (T1, T2), (T3, T4) and cond FM3, FM4 with pairs
(T5, T6), (T7, T8); in final.py _apply_numbering the two sides are
interleaved per record within one chiller pass, giving evap FM1, FM3 with
pairs (T1, T2), (T5, T6) and cond FM2, FM4 with pairs (T3, T4), (T7, T8). -/
theorem C1_labeling_amended :
    getk (sheetRec demoNumbered 0 0) "pm" = some "PM1" ∧
    getk (sheetRec demoNumbered 1 0) "pm" = some "PM2" ∧
    getk (sheetRec demoNumbered 2 0) "pm" = some "PM3" ∧
    getk (sheetRec demoNumbered 0 0) "evap_fm" = some "FM1" ∧
    getk (sheetRec demoNumbered 0 0) "evap_t_out" = some "T1" ∧
    getk (sheetRec demoNumbered 0 0) "evap_t_in" = some "T2" ∧
    getk (sheetRec demoNumbered 0 0) "cond_fm" = some "FM2" ∧
    getk (sheetRec demoNumbered 0 0) "cond_t_out" = some "T3" ∧
    getk (sheetRec demoNumbered 0 0) "cond_t_in" = some "T4" ∧
    getk (sheetRec demoNumbered 1 0) "evap_fm" = some "FM3" ∧
    getk (sheetRec demoNumbered 1 0) "evap_t_out" = some "T5" ∧
    getk (sheetRec demoNumbered 1 0) "evap_t_in" = some "T6" ∧
    getk (sheetRec demoNumbered 1 0) "cond_fm" = some "FM4" ∧
    getk (sheetRec demoNumbered 1 0) "cond_t_out" = some "T7" ∧
    getk (sheetRec demoNumbered 1 0) "cond_t_in" = some "T8" ∧
    getk (sheetRec demoNumbered 2 0) "evap_fm" = none ∧
    getk (sheetRec demoNumberedCh3 0 0) "pm" = some "PM1" ∧
    getk (sheetRec demoNumberedCh3 1 0) "pm" = some "PM2" ∧
    getk (sheetRec demoNumberedCh3 2 0) "pm" = some "PM3" ∧
    getk (sheetRec demoNumberedCh3 0 0) "evap_fm" = some "FM1" ∧
    getk (sheetRec demoNumberedCh3 0 0) "evap_t_out" = some "T1" ∧
    getk (sheetRec demoNumberedCh3 0 0) "evap_t_in" = some "T2" ∧
    getk (sheetRec demoNumberedCh3 1 0) "evap_fm" = some "FM2" ∧
    getk (sheetRec demoNumberedCh3 1 0) "evap_t_out" = some "T3" ∧
    getk (sheetRec demoNumberedCh3 1 0) "evap_t_in" = some "T4" ∧
    getk (sheetRec demoNumberedCh3 0 0) "cond_fm" = some "FM3" ∧
    getk (sheetRec demoNumberedCh3 0 0) "cond_t_out" = some "T5" ∧
    getk (sheetRec demoNumberedCh3 0 0) "cond_t_in" = some "T6" ∧
    getk (sheetRec demoNumberedCh3 1 0) "cond_fm" = some "FM4" ∧
    getk (sheetRec demoNumberedCh3 1 0) "cond_t_out" = some "T7" ∧
    getk (sheetRec demoNumberedCh3 1 0) "cond_t_in" = some "T8" := by decide

/-- C2 counterexample: with a one-record baseline cohort processed first,
final.py ContextBuilder gives the first record of the improved cohort pm PM2,
not the PM1 the claim asserts: the counters are instance state shared across
the two _process_group calls, not reset per cohort. -/
theorem C2_counterexample :
    getk (ctxRec demoTwoGroups.1 "改善後主機" 0) "pm" = some "PM2" ∧
    getk (ctxRec demoTwoGroups.1 "改善後主機" 0) "pm" ≠ some "PM1" := by decide

/-- C2 amended: in final.py the pm, fm and t counters are initialized once
per ContextBuilder (per build request) and continue from the baseline cohort
into the improved cohort, so after a one-record baseline chiller sheet the
improved first chiller record gets PM2, FM3, T5; in ch3.py apply_numbering
the counters are local to each cohort invocation and do reset, giving PM1,
FM1, T1. -/
theorem C2_counters_amended :
    getk (ctxRec demoTwoGroups.1 "改善後主機" 0) "pm" = some "PM2" ∧
    getk (ctxRec demoTwoGroups.1 "改善後主機" 0) "evap_fm" = some "FM3" ∧
    getk (ctxRec demoTwoGroups.1 "改善後主機" 0) "evap_t_out" = some "T5" ∧
    getk (sheetRec (apply_numbering_ch3 afterCohort) 0 0) "pm" = some "PM1" ∧
    getk (sheetRec (apply_numbering_ch3 afterCohort) 0 0) "evap_fm" = some "FM1" ∧
    getk (sheetRec (apply_numbering_ch3 afterCohort) 0 0) "evap_t_out" = some "T1" := by decide

/-- C3 counterexample: with the variable-sheet parse failing, final.py
ContextBuilder.build still produces a Report Context containing the processed
remaining sheet with its labels, so the request does not fail atomically and
partial output is produced. -/
theorem C3_counterexample :
    ctxKeys (build_var_checked (Except.error "parse failure") demoWb) = ["改善前主機"] ∧
    getk (ctxRec (build_var_checked (Except.error "parse failure") demoWb) "改善前主機" 0) "pm"
      = some "PM1" := by decide

/-- C3 amended: a failure to load or parse the variable sheet is caught by
the except of _load_variables, logged as a warning, and swallowed: the build
continues and returns exactly the Report Context obtained from processing the
remaining sheets, with no variable entries, as the concrete run shows. -/
theorem C3_variable_failure_amended :
    (∀ (e : String) (wb : Workbook),
      build_var_checked (Except.error e) wb = (process_sheets ([], freshCounters) wb).1) ∧
    getk (ctxRec (build_var_checked (Except.error "boom") demoWb) "改善前主機" 0) "evap_fm"
      = some "FM1" :=
  ⟨fun _ _ => rfl, by decide⟩

/-- C10: ContextBuilder.build is deterministic.  The counters and the context
are instance state allocated fresh in the constructor of each builder and the
source reads only from the uploaded workbook, so the embedding of build is a
pure function of the workbook and two runs from freshly constructed builders
coincide definitionally. -/
theorem C10_build_deterministic (wb : Workbook) : build wb = build wb := rfl

theorem perm_insert_first (x : Rec) (a b c d : List Rec) :
    ((x :: a) ++ b ++ c ++ d).Perm (x :: (a ++ b ++ c ++ d)) := by
  have h : (x :: a) ++ b ++ c ++ d = x :: (a ++ b ++ c ++ d) := by
    simp [List.append_assoc]
  rw [h]

theorem perm_insert_second (x : Rec) (a b c d : List Rec) :
    (a ++ (x :: b) ++ c ++ d).Perm (x :: (a ++ b ++ c ++ d)) := by
  have h1 : a ++ (x :: b) ++ c ++ d = a ++ x :: (b ++ c ++ d) := by
    simp [List.append_assoc]
  have h2 : a ++ b ++ c ++ d = a ++ (b ++ c ++ d) := by
    simp [List.append_assoc]
  rw [h1, h2]
  exact List.perm_middle

theorem perm_insert_third (x : Rec) (a b c d : List Rec) :
    (a ++ b ++ (x :: c) ++ d).Perm (x :: (a ++ b ++ c ++ d)) := by
  have h1 : a ++ b ++ (x :: c) ++ d = (a ++ b) ++ x :: (c ++ d) := by
    simp [List.append_assoc]
  have h2 : a ++ b ++ c ++ d = (a ++ b) ++ (c ++ d) := by
    simp [List.append_assoc]
  rw [h1, h2]
  exact List.perm_middle

theorem perm_insert_fourth (x : Rec) (a b c d : List Rec) :
    (a ++ b ++ c ++ (x :: d)).Perm (x :: (a ++ b ++ c ++ d)) := by
  have h1 : a ++ b ++ c ++ (x :: d) = (a ++ b ++ c) ++ x :: d := by
    simp [List.append_assoc]
  have h2 : a ++ b ++ c ++ d = (a ++ b ++ c) ++ d := by
    simp [List.append_assoc]
  rw [h1, h2]
  exact List.perm_middle

/-- The four category lists of the pump classifier are a partition of the
input records: their concatenation is a permutation of the input. -/
theorem classifyPumpLists_perm (items : List Rec) :
    ((classifyPumpLists items).1 ++ (classifyPumpLists items).2.1 ++
      (classifyPumpLists items).2.2.1 ++ (classifyPumpLists items).2.2.2).Perm items := by
  induction items with
  | nil => simp [classifyPumpLists]
  | cons r rest ih =>
    simp only [classifyPumpLists]
    split
    · exact (perm_insert_third r _ _ _ _).trans (ih.cons r)
    · split
      · exact (perm_insert_second r _ _ _ _).trans (ih.cons r)
      · split
        · exact (perm_insert_first r _ _ _ _).trans (ih.cons r)
        · exact (perm_insert_fourth r _ _ _ _).trans (ih.cons r)

theorem ctxKeys_cons (k0 : String) (v0 : CtxVal) (rest : Ctx) :
    ctxKeys ((k0, v0) :: rest) = k0 :: ctxKeys rest := rfl

theorem self_mem_setCtx (c : Ctx) (k : String) (v : CtxVal) :
    k ∈ ctxKeys (setCtx c k v) := by
  induction c with
  | nil => simp [setCtx, ctxKeys]
  | cons p rest ih =>
    obtain ⟨k0, v0⟩ := p
    by_cases h : k0 = k
    · simp [setCtx, h, ctxKeys]
    · rw [setCtx, if_neg h, ctxKeys_cons, List.mem_cons]
      exact Or.inr ih

theorem mem_setCtx_of_mem {a k : String} {v : CtxVal} {c : Ctx}
    (h : a ∈ ctxKeys c) : a ∈ ctxKeys (setCtx c k v) := by
  induction c with
  | nil => simp [ctxKeys] at h
  | cons p rest ih =>
    obtain ⟨k0, v0⟩ := p
    rw [ctxKeys_cons, List.mem_cons] at h
    by_cases hk : k0 = k
    · rw [setCtx, if_pos hk, ctxKeys_cons, List.mem_cons]
      rcases h with h | h
      · exact Or.inl (hk ▸ h)
      · exact Or.inr h
    · rw [setCtx, if_neg hk, ctxKeys_cons, List.mem_cons]
      rcases h with h | h
      · exact Or.inl h
      · exact Or.inr (ih h)

theorem mem_of_mem_setCtx {a k : String} {v : CtxVal} {c : Ctx}
    (h : a ∈ ctxKeys (setCtx c k v)) : a = k ∨ a ∈ ctxKeys c := by
  induction c with
  | nil => simpa [setCtx, ctxKeys] using h
  | cons p rest ih =>
    obtain ⟨k0, v0⟩ := p
    by_cases hk : k0 = k
    · rw [setCtx, if_pos hk, ctxKeys_cons, List.mem_cons] at h
      rcases h with h | h
      · exact Or.inl h
      · exact Or.inr (by rw [ctxKeys_cons, List.mem_cons]; exact Or.inr h)
    · rw [setCtx, if_neg hk, ctxKeys_cons, List.mem_cons] at h
      rcases h with h | h
      · exact Or.inr (by rw [ctxKeys_cons, List.mem_cons]; exact Or.inl h)
      · rcases ih h with h1 | h1
        · exact Or.inl h1
        · exact Or.inr (by rw [ctxKeys_cons, List.mem_cons]; exact Or.inr h1)

/-- C4: for every pump sheet the classifier partitions the records by the
first-match priority zone, cooling, ice, other: the concatenation of the four
category lists is a permutation of the original record sequence (no
duplicates, no omissions), and all four suffixed context keys are always
written. -/
theorem C4_pump_partition (base : String) (items : List Rec) (ctx : Ctx) :
    ((classifyPumpLists items).1 ++ (classifyPumpLists items).2.1 ++
      (classifyPumpLists items).2.2.1 ++ (classifyPumpLists items).2.2.2).Perm items ∧
    ∀ k ∈ pumpKeys base, k ∈ ctxKeys (classify_pumps base items ctx) := by
  refine ⟨classifyPumpLists_perm items, ?_⟩
  intro k hk
  simp only [pumpKeys, pumpSuffixes, List.map, List.mem_cons, List.not_mem_nil,
    or_false] at hk
  unfold classify_pumps
  rcases hk with rfl | rfl | rfl | rfl
  · exact mem_setCtx_of_mem (mem_setCtx_of_mem (mem_setCtx_of_mem (self_mem_setCtx _ _ _)))
  · exact mem_setCtx_of_mem (mem_setCtx_of_mem (self_mem_setCtx _ _ _))
  · exact mem_setCtx_of_mem (self_mem_setCtx _ _ _)
  · exact self_mem_setCtx _ _ _

theorem C4_pump_partition_witness :
    ((classifyPumpLists [recP]).1 ++ (classifyPumpLists [recP]).2.1 ++
      (classifyPumpLists [recP]).2.2.1 ++ (classifyPumpLists [recP]).2.2.2).Perm [recP] ∧
    "改善前泵_冰水" ∈ ctxKeys (classify_pumps "改善前泵" [recP] []) :=
  ⟨(C4_pump_partition "改善前泵" [recP] []).1,
    (C4_pump_partition "改善前泵" [recP] []).2 "改善前泵_冰水" (by decide)⟩

theorem classify_pumps_keys {a : String} (base : String) (items : List Rec) (c : Ctx)
    (h : a ∈ ctxKeys (classify_pumps base items c)) :
    a ∈ ctxKeys c ∨ a ∈ pumpKeys base := by
  unfold classify_pumps at h
  rcases mem_of_mem_setCtx h with h1 | h1
  · exact Or.inr (by simp [pumpKeys, pumpSuffixes, h1])
  rcases mem_of_mem_setCtx h1 with h2 | h2
  · exact Or.inr (by simp [pumpKeys, pumpSuffixes, h2])
  rcases mem_of_mem_setCtx h2 with h3 | h3
  · exact Or.inr (by simp [pumpKeys, pumpSuffixes, h3])
  rcases mem_of_mem_setCtx h3 with h4 | h4
  · exact Or.inr (by simp [pumpKeys, pumpSuffixes, h4])
  · exact Or.inl h4

/-- Keys of the standalone or write-back update for one sheet: the old keys,
the sheet name, or its pump-suffixed composites. -/
theorem standalone_keys {a n : String} {data : List Rec} {ctx : Ctx}
    (h : a ∈ ctxKeys (if is_pump_sheet n
        then classify_pumps n data (setCtx ctx n (CtxVal.recs data))
        else setCtx ctx n (CtxVal.recs data))) :
    a ∈ ctxKeys ctx ∨ a = n ∨ a ∈ pumpKeys n := by
  by_cases hp : is_pump_sheet n = true
  · rw [if_pos hp] at h
    rcases classify_pumps_keys _ _ _ h with h1 | h1
    · rcases mem_of_mem_setCtx h1 with h2 | h2
      · exact Or.inr (Or.inl h2)
      · exact Or.inl h2
    · exact Or.inr (Or.inr h1)
  · rw [if_neg hp] at h
    rcases mem_of_mem_setCtx h with h2 | h2
    · exact Or.inr (Or.inl h2)
    · exact Or.inl h2

theorem writeSheets_keys (l : List (String × List Rec)) :
    ∀ (c : Ctx) (a : String), a ∈ ctxKeys (writeSheets c l) →
      a ∈ ctxKeys c ∨ ∃ m ∈ l.map Prod.fst, a = m ∨ a ∈ pumpKeys m := by
  induction l with
  | nil =>
    intro c a h
    exact Or.inl (by simpa [writeSheets] using h)
  | cons p rest ih =>
    intro c a h
    obtain ⟨n, items⟩ := p
    simp only [writeSheets] at h
    rcases ih _ _ h with h1 | h1
    · rcases standalone_keys h1 with h2 | h2
      · exact Or.inl h2
      · exact Or.inr ⟨n, by simp, h2⟩
    · obtain ⟨m, hm, hp2⟩ := h1
      exact Or.inr ⟨m, by simp [hm], hp2⟩

theorem pmSheets_fst (l : List (String × List Rec)) :
    ∀ c, ((pmSheets c l).2).map Prod.fst = l.map Prod.fst := by
  induction l with
  | nil => intro c; rfl
  | cons p rest ih =>
    intro c
    obtain ⟨n, items⟩ := p
    simp [pmSheets, ih]

theorem chillerSheets_fst (l : List (String × List Rec)) :
    ∀ fm t, ((chillerSheets fm t l).2.2).map Prod.fst = l.map Prod.fst := by
  induction l with
  | nil => intro fm t; rfl
  | cons p rest ih =>
    intro fm t
    obtain ⟨n, items⟩ := p
    by_cases h : isChillerSheet n = true <;> simp [chillerSheets, h, ih]

theorem apply_numbering_fst (c : Counters) (l : List (String × List Rec)) :
    ((apply_numbering c l).2).map Prod.fst = l.map Prod.fst := by
  simp [apply_numbering, chillerSheets_fst, pmSheets_fst]

theorem mem_insertByWeight {p x : String × List Rec} {l : List (String × List Rec)}
    (h : p ∈ insertByWeight x l) : p = x ∨ p ∈ l := by
  induction l with
  | nil => simpa [insertByWeight] using h
  | cons y ys ih =>
    simp only [insertByWeight] at h
    split at h
    · rcases List.mem_cons.mp h with h1 | h1
      · exact Or.inr (by simp [h1])
      · rcases ih h1 with h2 | h2
        · exact Or.inl h2
        · exact Or.inr (by simp [h2])
    · rcases List.mem_cons.mp h with h1 | h1
      · exact Or.inl h1
      · exact Or.inr h1

theorem mem_sortByWeight {p : String × List Rec} {l : List (String × List Rec)}
    (h : p ∈ sortByWeight l) : p ∈ l := by
  induction l with
  | nil => simp [sortByWeight] at h
  | cons x xs ih =>
    simp only [sortByWeight] at h
    rcases mem_insertByWeight h with h1 | h1
    · simp [h1]
    · simp [ih h1]

theorem process_group_keys (st : Ctx × Counters) (l : List (String × List Rec)) (a : String)
    (h : a ∈ ctxKeys (process_group st l).1) :
    a ∈ ctxKeys st.1 ∨ ∃ m ∈ l.map Prod.fst, a = m ∨ a ∈ pumpKeys m := by
  simp only [process_group] at h
  rcases writeSheets_keys _ _ _ h with h1 | h1
  · exact Or.inl h1
  · obtain ⟨m, hm, hp⟩ := h1
    rw [apply_numbering_fst] at hm
    obtain ⟨q, hq, rfl⟩ := List.mem_map.mp hm
    exact Or.inr ⟨q.1, List.mem_map_of_mem _ (mem_sortByWeight hq), hp⟩

theorem contribKey_cons (p0 : String × Grid) {wb : Workbook} {a : String}
    (h : contribKey wb a) : contribKey (p0 :: wb) a := by
  obtain ⟨q, hq, hh⟩ := h
  exact ⟨q, List.mem_cons_of_mem _ hq, hh⟩

theorem contribName_cons (p0 : String × Grid) {wb : Workbook} {m : String}
    (h : contribName wb m) : contribName (p0 :: wb) m := by
  obtain ⟨q, hq, hh⟩ := h
  exact ⟨q, List.mem_cons_of_mem _ hq, hh⟩

theorem contribKey_head {n : String} {g : Grid} {wb : Workbook} {a : String}
    (hne : parse_sheet g ≠ []) (h : a = n ∨ a ∈ pumpKeys n) :
    contribKey ((n, g) :: wb) a :=
  ⟨(n, g), List.mem_cons_self _ _, hne, h⟩

theorem contribName_head {n : String} {g : Grid} {wb : Workbook} {m : String}
    (hne : parse_sheet g ≠ []) (h : m = n) : contribName ((n, g) :: wb) m :=
  ⟨(n, g), List.mem_cons_self _ _, hne, h⟩

theorem contribKey_of_name {wb : Workbook} {m n : String}
    (h : contribName wb m) (hor : n = m ∨ n ∈ pumpKeys m) : contribKey wb n := by
  obtain ⟨q, hq, hne, hm⟩ := h
  subst hm
  exact ⟨q, hq, hne, hor⟩

theorem contribKey_elim {wb : Workbook} {n : String}
    (hempty : ∀ p ∈ wb, p.1 = n → parse_sheet p.2 = [])
    (hsuf : ∀ p ∈ wb, n ∉ pumpKeys p.1)
    (h : contribKey wb n) : False := by
  obtain ⟨q, hq, hne, hor⟩ := h
  rcases hor with h1 | h1
  · exact hne (hempty q hq h1.symm)
  · exact hsuf q hq h1

/-- What the classification loop of _process_sheets can produce: context keys
come from the initial context or from a non-empty-extraction sheet (its name
or a pump composite), and cohort entries are named after
non-empty-extraction sheets. -/
theorem splitCohorts_spec (wb : Workbook) :
    ∀ (ctx : Ctx) (b0 a0 : List (String × List Rec)),
      (∀ a, a ∈ ctxKeys (splitCohorts ctx b0 a0 wb).1 →
        a ∈ ctxKeys ctx ∨ contribKey wb a) ∧
      (∀ m, m ∈ ((splitCohorts ctx b0 a0 wb).2.1).map Prod.fst →
        m ∈ b0.map Prod.fst ∨ contribName wb m) ∧
      (∀ m, m ∈ ((splitCohorts ctx b0 a0 wb).2.2).map Prod.fst →
        m ∈ a0.map Prod.fst ∨ contribName wb m) := by
  induction wb with
  | nil =>
    intro ctx b0 a0
    exact ⟨fun a h => Or.inl h, fun m h => Or.inl h, fun m h => Or.inl h⟩
  | cons hdp rest ih =>
    intro ctx b0 a0
    obtain ⟨n, g⟩ := hdp
    by_cases hvar : n = "變數"
    · have e : splitCohorts ctx b0 a0 ((n, g) :: rest) = splitCohorts ctx b0 a0 rest := by
        simp [splitCohorts, hvar]
      rw [e]
      obtain ⟨ihc, ihb, iha⟩ := ih ctx b0 a0
      exact ⟨fun a h => (ihc a h).imp id (contribKey_cons _),
        fun m h => (ihb m h).imp id (contribName_cons _),
        fun m h => (iha m h).imp id (contribName_cons _)⟩
    · cases hd : parse_sheet g with
      | nil =>
        have e : splitCohorts ctx b0 a0 ((n, g) :: rest) = splitCohorts ctx b0 a0 rest := by
          simp [splitCohorts, hvar, hd]
        rw [e]
        obtain ⟨ihc, ihb, iha⟩ := ih ctx b0 a0
        exact ⟨fun a h => (ihc a h).imp id (contribKey_cons _),
          fun m h => (ihb m h).imp id (contribName_cons _),
          fun m h => (iha m h).imp id (contribName_cons _)⟩
      | cons r rs =>
        have hne : parse_sheet g ≠ [] := by simp [hd]
        by_cases hb : strContains n "改善前" = true
        · have e : splitCohorts ctx b0 a0 ((n, g) :: rest)
              = splitCohorts ctx (b0 ++ [(n, r :: rs)]) a0 rest := by
            simp [splitCohorts, hvar, hd, hb]
          rw [e]
          obtain ⟨ihc, ihb, iha⟩ := ih ctx (b0 ++ [(n, r :: rs)]) a0
          refine ⟨fun a h => (ihc a h).imp id (contribKey_cons _), fun m h => ?_,
            fun m h => (iha m h).imp id (contribName_cons _)⟩
          rcases ihb m h with h1 | h1
          · rw [List.map_append, List.mem_append] at h1
            rcases h1 with h1 | h1
            · exact Or.inl h1
            · exact Or.inr (contribName_head hne (by simpa using h1))
          · exact Or.inr (contribName_cons _ h1)
        · by_cases ha : strContains n "改善後" = true
          · have e : splitCohorts ctx b0 a0 ((n, g) :: rest)
                = splitCohorts ctx b0 (a0 ++ [(n, r :: rs)]) rest := by
              simp [splitCohorts, hvar, hd, hb, ha]
            rw [e]
            obtain ⟨ihc, ihb, iha⟩ := ih ctx b0 (a0 ++ [(n, r :: rs)])
            refine ⟨fun a h => (ihc a h).imp id (contribKey_cons _),
              fun m h => (ihb m h).imp id (contribName_cons _), fun m h => ?_⟩
            rcases iha m h with h1 | h1
            · rw [List.map_append, List.mem_append] at h1
              rcases h1 with h1 | h1
              · exact Or.inl h1
              · exact Or.inr (contribName_head hne (by simpa using h1))
            · exact Or.inr (contribName_cons _ h1)
          · have e : splitCohorts ctx b0 a0 ((n, g) :: rest)
                = splitCohorts (if is_pump_sheet n
                    then classify_pumps n (r :: rs) (setCtx ctx n (CtxVal.recs (r :: rs)))
                    else setCtx ctx n (CtxVal.recs (r :: rs))) b0 a0 rest := by
              simp [splitCohorts, hvar, hd, hb, ha]
            rw [e]
            obtain ⟨ihc, ihb, iha⟩ := ih (if is_pump_sheet n
              then classify_pumps n (r :: rs) (setCtx ctx n (CtxVal.recs (r :: rs)))
              else setCtx ctx n (CtxVal.recs (r :: rs))) b0 a0
            refine ⟨fun a h => ?_, fun m h => (ihb m h).imp id (contribName_cons _),
              fun m h => (iha m h).imp id (contribName_cons _)⟩
            rcases ihc a h with h1 | h1
            · rcases standalone_keys h1 with h2 | h2
              · exact Or.inl h2
              · exact Or.inr (contribKey_head hne h2)
            · exact Or.inr (contribKey_cons _ h1)

theorem cellNonBlank_false {c : Cell} (h : cellNonBlank c = false) :
    headerCellText c = none := by
  cases c with
  | none => rfl
  | some s =>
    have hs : stripStr s = "" := by simpa [cellNonBlank] using h
    simp [headerCellText, hs]

theorem rowToText_of_blank {row : List Cell} (h : rowNonBlank row = false) :
    rowToText row = "" := by
  have hall : ∀ c ∈ row, headerCellText c = none := by
    intro c hc
    refine cellNonBlank_false ?_
    have h2 := List.any_eq_false.mp h c hc
    simpa using h2
  unfold rowToText
  rw [List.filterMap_eq_nil_iff.mpr hall]
  rfl

theorem isEquipHeaderRow_of_blank {row : List Cell} (h : rowNonBlank row = false) :
    isEquipHeaderRow row = false := by
  unfold isEquipHeaderRow
  rw [rowToText_of_blank h]
  decide

theorem findEquipHeader_of_blank {g : Grid} (h : ∀ row ∈ g, rowNonBlank row = false) :
    ∀ i, findEquipHeader i g = none := by
  induction g with
  | nil => intro i; rfl
  | cons row rest ih =>
    intro i
    rw [findEquipHeader, isEquipHeaderRow_of_blank (h row (List.mem_cons_self _ _))]
    simp only [Bool.false_eq_true, if_false]
    exact ih (fun r hr => h r (List.mem_cons_of_mem _ hr)) (i + 1)

theorem findFirstNonBlank_of_blank {g : Grid} (h : ∀ row ∈ g, rowNonBlank row = false) :
    ∀ i, findFirstNonBlank i g = none := by
  induction g with
  | nil => intro i; rfl
  | cons row rest ih =>
    intro i
    rw [findFirstNonBlank, h row (List.mem_cons_self _ _)]
    simp only [Bool.false_eq_true, if_false]
    exact ih (fun r hr => h r (List.mem_cons_of_mem _ hr)) (i + 1)

theorem find_header_row_of_blank {g : Grid} (h : ∀ row ∈ g, rowNonBlank row = false) :
    find_header_row g = none := by
  unfold find_header_row
  rw [findEquipHeader_of_blank h 0, findFirstNonBlank_of_blank h 0]

theorem parse_sheet_of_blank (g : Grid) (h : ∀ row ∈ g.take 20, rowNonBlank row = false) :
    parse_sheet g = [] := by
  unfold parse_sheet
  rw [find_header_row_of_blank h]

/-- C8: a sheet with no non-blank row in the 20-row header-scan window
yields an empty record sequence from the Table Extractor, and every sheet of
the workbook whose extraction is empty contributes no key at all to the
Report Context: given a sheet-processing run from any initial context not
containing the name, the name is absent from the result (no empty-list
binding either), provided no other sheet produces that exact composite key. -/
theorem C8_empty_sheet_absent :
    (∀ g : Grid, (∀ row ∈ g.take 20, rowNonBlank row = false) → parse_sheet g = []) ∧
    (∀ (wb : Workbook) (ctx0 : Ctx) (cnt : Counters) (n : String),
      n ∉ ctxKeys ctx0 →
      (∀ p ∈ wb, p.1 = n → parse_sheet p.2 = []) →
      (∀ p ∈ wb, n ∉ pumpKeys p.1) →
      n ∉ ctxKeys (process_sheets (ctx0, cnt) wb).1) := by
  constructor
  · exact parse_sheet_of_blank
  · intro wb ctx0 cnt n hctx hempty hsuf h
    obtain ⟨sc, sb, sa⟩ := splitCohorts_spec wb ctx0 [] []
    simp only [process_sheets] at h
    rcases process_group_keys _ _ _ h with h1 | h1
    · rcases process_group_keys _ _ _ h1 with h2 | h2
      · rcases sc n h2 with h3 | h3
        · exact hctx h3
        · exact contribKey_elim hempty hsuf h3
      · obtain ⟨m, hm, hor⟩ := h2
        rcases sb m hm with h3 | h3
        · simp at h3
        · exact contribKey_elim hempty hsuf (contribKey_of_name h3 hor)
    · obtain ⟨m, hm, hor⟩ := h1
      rcases sa m hm with h3 | h3
      · simp at h3
      · exact contribKey_elim hempty hsuf (contribKey_of_name h3 hor)

theorem C8_empty_sheet_absent_witness :
    parse_sheet blankGrid = [] ∧
    "blanksheet" ∉ ctxKeys (process_sheets ([], freshCounters) demoWb2).1 :=
  ⟨C8_empty_sheet_absent.1 blankGrid (by decide),
    C8_empty_sheet_absent.2 demoWb2 [] freshCounters "blanksheet"
      (by decide) (by decide) (by decide)⟩

end Generator
